import Mathlib

/-
Verification of the avendesora secret-handling core against its design
specification.

The development shallowly embeds the relevant program parts:
  * `src/avendesora/writer.py`: the autotype script interpreter
    (`KeyboardWriter.run_script` and its inner `autotype` helper), the
    TTY writer (`TTY_Writer.display_field`) and the clipboard writer
    (`ClipboardWriter.display_field`);
  * `src/avendesora/command.py`: the transactional edit workflows
    (`Edit.run` and `Add.run`).

External collaborators that are not part of the three source files
(account field resolution, the PythonFile/GnuPG storage layer, the
external editor) are modelled from the spec, as parameters or as small
state-passing functions; each such definition says so in its doc
comment.  Timing (time.sleep) is not modelled; only the observable
traces (file bytes, keystrokes, transcript, log/error text, clipboard
events) are.

All string manipulation is routed through `List Char` with structural
recursion so that every definition evaluates by `decide` / `rfl`.
-/

namespace Avendesora

/-! ## Generic string helpers (Python semantics, on `List Char`) -/

/-- Concatenation of a list of strings, as Python `''.join`. -/
def strJoin (l : List String) : String :=
  String.mk ((l.map String.toList).flatten)

/-- ASCII lower-casing, as Python `str.lower` on the ASCII command names
used by the interpreter. -/
def lowerStr (s : String) : String :=
  String.mk (s.toList.map Char.toLower)

/-- ASCII upper-casing, as Python `str.upper` on account labels. -/
def upperStr (s : String) : String :=
  String.mk (s.toList.map Char.toUpper)

/-- Whether `p` is a prefix of `l`, character by character. -/
def listIsPrefix : List Char → List Char → Bool
  | [], _ => true
  | _ :: _, [] => false
  | a :: as, b :: bs => a == b && listIsPrefix as bs

/-- Python `s.startswith(p)`. -/
def strStartsWith (s p : String) : Bool :=
  listIsPrefix p.toList s.toList

/-- Python `s.strip()` (whitespace stripped from both ends). -/
def pyStrip (s : String) : String :=
  String.mk (((s.toList.dropWhile Char.isWhitespace).reverse.dropWhile
    Char.isWhitespace).reverse)

/-- Python `s.strip('\n')`. -/
def stripNL (s : String) : String :=
  String.mk (((s.toList.dropWhile (· == '\n')).reverse.dropWhile
    (· == '\n')).reverse)

/-- Python `s.split('\n')`: splits at every newline, keeping empty
pieces, so the result is always nonempty. -/
def splitLines : List Char → List (List Char)
  | [] => [[]]
  | c :: cs =>
    if c = '\n' then [] :: splitLines cs
    else
      match splitLines cs with
      | [] => [[c]]
      | l :: ls => (c :: l) :: ls

/-- Intercalate a newline between lines, inverse of `splitLines`. -/
def joinNL : List (List Char) → List Char
  | [] => []
  | [l] => l
  | l :: l' :: ls => l ++ '\n' :: joinNL (l' :: ls)

/-- Split on whitespace runs, keeping (possibly empty) pieces. -/
def splitByWs : List Char → List (List Char)
  | [] => [[]]
  | c :: cs =>
    if c.isWhitespace then [] :: splitByWs cs
    else
      match splitByWs cs with
      | [] => [[c]]
      | l :: ls => (c :: l) :: ls

/-- Python `s.split()` with no argument: whitespace-delimited words,
empty pieces dropped. -/
def splitWs (s : String) : List String :=
  ((splitByWs s.toList).filter (· ≠ [])).map String.mk

/-! ## The keysym table and `autotype` (writer.py)

`KEYSYMS` is the module-level symbol table of `writer.py`: it maps the
punctuation, digit, space and control characters to their xkeysym
names.  Characters outside ASCII letters and this table have no
mapping. -/

/-- The `KEYSYMS` dictionary of `writer.py`. -/
def KEYSYMS : Char → Option String
  | '!' => some "exclam"
  | '"' => some "quotedbl"
  | '#' => some "numbersign"
  | '$' => some "dollar"
  | '%' => some "percent"
  | '&' => some "ampersand"
  | '\'' => some "apostrophe"
  | '(' => some "parenleft"
  | ')' => some "parenright"
  | '*' => some "asterisk"
  | '+' => some "plus"
  | ',' => some "comma"
  | '-' => some "minus"
  | '.' => some "period"
  | '/' => some "slash"
  | '0' => some "zero"
  | '1' => some "one"
  | '2' => some "two"
  | '3' => some "three"
  | '4' => some "four"
  | '5' => some "five"
  | '6' => some "six"
  | '7' => some "seven"
  | '8' => some "eight"
  | '9' => some "nine"
  | ' ' => some "space"
  | ':' => some "colon"
  | ';' => some "semicolon"
  | '<' => some "less"
  | '=' => some "equal"
  | '>' => some "greater"
  | '?' => some "question"
  | '@' => some "at"
  | '[' => some "bracketleft"
  | '\\' => some "backslash"
  | ']' => some "bracketright"
  | '^' => some "asciicircum"
  | '_' => some "underscore"
  | '`' => some "grave"
  | '{' => some "braceleft"
  | '|' => some "bar"
  | '}' => some "braceright"
  | '~' => some "asciitilde"
  | '\n' => some "Return"
  | '\t' => some "Tab"
  | _ => none

/-- The keysym chosen for one character in `autotype`: an ASCII letter
maps to itself (`char in string.ascii_letters`), anything else goes
through `KEYSYMS.get`. -/
def charKeysym (c : Char) : Option String :=
  if c.isAlpha then some (String.mk [c]) else KEYSYMS c

/-- The error report `error('cannot map to keysym, unknown',
culprit=char)` rendered with its culprit, as inform prints and logs
it. -/
def errMsg (c : Char) : String :=
  String.mk [c] ++ ": cannot map to keysym, unknown"

/-- One iteration of the character loop in `autotype`: a mappable
character appends its keysym, an unmappable one appends an error report
instead and is skipped. -/
def autotypeStep (acc : List String × List String) (c : Char) :
    List String × List String :=
  match charKeysym c with
  | some k => (acc.1 ++ [k], acc.2)
  | none => (acc.1, acc.2 ++ [errMsg c])

/-- The inner `autotype` helper of `KeyboardWriter.run_script`: converts
the text character by character; returns the keysym sequence handed to
`xdotool key --clearmodifiers` and the list of error reports emitted for
unmappable characters. -/
def autotype (text : String) : List String × List String :=
  text.toList.foldl autotypeStep ([], [])

/-! ### Characterisation of `autotype` -/

lemma autotype_fold (l : List Char) (a b : List String) :
    l.foldl autotypeStep (a, b) =
      (a ++ l.filterMap charKeysym,
       b ++ (l.filter (fun c => (charKeysym c).isNone)).map errMsg) := by
  induction l generalizing a b with
  | nil => simp
  | cons c cs ih =>
    cases h : charKeysym c with
    | some k =>
      simp [List.foldl_cons, autotypeStep, h, ih, List.filterMap_cons]
    | none =>
      simp [List.foldl_cons, autotypeStep, h, ih, List.filterMap_cons]

lemma autotype_fst (text : String) :
    (autotype text).1 = text.toList.filterMap charKeysym := by
  simp [autotype, autotype_fold]

lemma autotype_snd (text : String) :
    (autotype text).2 =
      (text.toList.filter (fun c => (charKeysym c).isNone)).map errMsg := by
  simp [autotype, autotype_fold]

/-- C9: in the conversion of the keystroke buffer to virtual keys, a
character with no symbol-table mapping is reported as an error but does
not abort the conversion: the keysyms produced are exactly those of the
mappable characters, in their original order, with each unmapped
character omitted, and the error reports are exactly one per unmapped
character, in order. -/
theorem C9_unmapped_char_skipped (text : String) :
    (autotype text).1 = text.toList.filterMap charKeysym ∧
    (autotype text).2 =
      (text.toList.filter (fun c => (charKeysym c).isNone)).map errMsg := by
  exact ⟨autotype_fst text, autotype_snd text⟩

/-! ## The script tokenizer (writer.py, `re.split` on `({\w+})`)

`run_script` splits the script with `re.compile(r'({\w+})').split`,
which alternates the text between matches with the matched
brace-delimited commands.  `\w` is modelled as ASCII alphanumerics plus
underscore (the commands appearing in scripts are ASCII).  Note that a
`{...}` group whose interior contains a space — such as a sleep command —
can never match `\w+`, so it survives only as part of a literal
segment. -/

/-- A regex word character (ASCII fragment of Python `\w`). -/
def isWordChar (c : Char) : Bool :=
  c.isAlphanum || c == '_'

/-- Longest word-character prefix and the remainder. -/
def takeWord : List Char → List Char × List Char
  | [] => ([], [])
  | c :: cs =>
    if isWordChar c then
      let (w, r) := takeWord cs
      (c :: w, r)
    else ([], c :: cs)

/-- Attempt to match `({\w+})` at the head of the text; on success,
return the matched token (braces included) and the remainder. -/
def matchCmdAt : List Char → Option (List Char × List Char)
  | '{' :: rest =>
    match takeWord rest with
    | ([], _) => none
    | (w, r) =>
      match r with
      | '}' :: r' => some ('{' :: (w ++ ['}']), r')
      | _ => none
  | _ => none

/-- Worker for the split: scans left to right for the leftmost match,
accumulating the literal text before it (reversed).  The fuel is only a
structural-recursion device; `splitScript` supplies enough for the whole
text, and every step consumes at least one remaining character. -/
def splitAux : Nat → List Char → List Char → List (List Char)
  | _, [], acc => [acc.reverse]
  | 0, rest, acc => [acc.reverse ++ rest]
  | fuel + 1, c :: cs, acc =>
    match matchCmdAt (c :: cs) with
    | some (tok, rest) => acc.reverse :: tok :: splitAux fuel rest []
    | none => splitAux fuel cs (c :: acc)

/-- Python `re.compile(r'({\w+})').split(script)`: literal segments
alternating with matched command tokens (empty literal segments
included, as `re.split` produces them). -/
def splitScript (s : String) : List String :=
  (splitAux s.toList.length s.toList []).map String.mk

/-! ## The script interpreter (`KeyboardWriter.run_script`)

The account is the external field-resolution collaborator.  Modelled
from the spec: `account.split_name` / `account.get_field` /
`account.is_secret` are folded into one lookup taking the lower-cased
command text and returning the resolved field value (already passed
through `dedent(str(...)).strip()`, which the source applies at the call
site) together with its `is_secret` flag; `none` models a resolution
`Error`, which `err.terminate()` turns into an abort. -/

/-- An account, as the interpreter sees it: a partial map from the
field reference written in the script to the resolved string value and
its secrecy flag. -/
abbrev Account : Type := String → Option (String × Bool)

/-- How a `run_script` invocation can abort: the fatal
`'syntax error in keyboard script.'` (a `ScriptError`), or a field
resolution failure terminated by `err.terminate()`. -/
inductive ScriptAbort where
  | scriptError (term : String)
  | fieldError (cmd : String)
deriving DecidableEq, Repr

/-- The observable state of one `run_script` invocation:
`out`/`scrubbed` are the keystroke buffer and transcript piece lists of
the source; `sent` collects each text actually flushed to the
pseudo-keyboard (one entry per `autotype` call); `logs` collects strings
passed to `log`; `errors` collects error/fatal report strings (inform
writes those to the log file as well). -/
structure RunState where
  out : List String
  scrubbed : List String
  sent : List String
  logs : List String
  errors : List String
deriving DecidableEq, Repr

/-- State at the start of `run_script` (after the initial autotype
delay, which is timing only). -/
def initRunState : RunState := ⟨[], [], [], [], []⟩

/-- Flush the pending keystroke buffer: `autotype(''.join(out))`
converts it (reporting unmappable characters) and sends it, and the
buffer is reset. -/
def flushBuffer (st : RunState) : RunState :=
  { st with
    sent := st.sent ++ [strJoin st.out]
    errors := st.errors ++ (autotype (strJoin st.out)).2
    out := [] }

/-- The abort taken by the sleep branch after its asserts pass: the
pending buffer is flushed (`if out: autotype(...)`), then
`time.sleep(cmd[1])` is handed the argument as a `str` and raises
`TypeError`, which the `except (AssertionError, TypeError)` clause
converts into the fatal `'syntax error in keyboard script.'`. -/
def sleepAbort (st : RunState) (term : String) :
    RunState × Option ScriptAbort :=
  let st₁ := if st.out = [] then st else flushBuffer st
  ({ st₁ with
      errors := st₁.errors ++ [term ++ ": syntax error in keyboard script."] },
   some (ScriptAbort.scriptError term))

/-- Python `term and term[0] == '{' and term[-1] == '}'`. -/
def braceTerm (t : String) : Bool :=
  t.toList.head? == some '{' && t.toList.getLast? == some '}'

/-- Processing of one term of the split script, mirroring the body of
the `for term in regex.split(script)` loop. -/
def procTerm (acct : Account) (st : RunState) (term : String) :
    RunState × Option ScriptAbort :=
  if braceTerm term then
    let cmd := lowerStr (String.mk ((term.toList.drop 1).dropLast))
    if cmd = "tab" then
      ({ st with out := st.out ++ ["\t"], scrubbed := st.scrubbed ++ ["\t"] },
       none)
    else if cmd = "return" then
      ({ st with out := st.out ++ ["\n"], scrubbed := st.scrubbed ++ ["\n"] },
       none)
    else if strStartsWith cmd "sleep " then
      let parts := splitWs cmd
      if parts.head? = some "sleep" ∧ parts.length = 2 then
        sleepAbort st term
      else
        ({ st with
            errors :=
              st.errors ++ [term ++ ": syntax error in keyboard script."] },
         some (ScriptAbort.scriptError term))
    else
      match acct cmd with
      | some (v, secret) =>
        ({ st with
            out := st.out ++ [v]
            scrubbed :=
              st.scrubbed ++ [if secret then "<" ++ cmd ++ ">" else v] },
         none)
      | none =>
        ({ st with errors := st.errors ++ [cmd ++ ": field resolution error"] },
         some (ScriptAbort.fieldError cmd))
  else
    ({ st with out := st.out ++ [term] }, none)

/-- Run the loop over a list of terms; a fatal abort stops the whole
invocation (inform `fatal` / `err.terminate()` end the process). -/
def runTermList (acct : Account) :
    RunState → List String → RunState × Option ScriptAbort
  | st, [] => (st, none)
  | st, t :: ts =>
    match procTerm acct st t with
    | (st', none) => runTermList acct st' ts
    | (st', some e) => (st', some e)

/-- The epilogue after the loop:
`log('Autotyping "%s".' % ''.join(scrubbed))` followed by the final
`autotype(''.join(out))`. -/
def finishRun (st : RunState) : RunState :=
  { st with
    logs := st.logs ++ ["Autotyping \"" ++ strJoin st.scrubbed ++ "\"."]
    sent := st.sent ++ [strJoin st.out]
    errors := st.errors ++ (autotype (strJoin st.out)).2
    out := [] }

/-- `KeyboardWriter.run_script` on an explicit script string: tokenize,
run the loop, and on normal completion log the transcript and send the
buffer. -/
def runScript (acct : Account) (script : String) :
    RunState × Option ScriptAbort :=
  match runTermList acct initRunState (splitScript script) with
  | (st, none) => (finishRun st, none)
  | (st, some e) => (st, some e)

/-- The redacted transcript accumulated by a run. -/
def transcript (st : RunState) : String := strJoin st.scrubbed

/-- Everything a run contributes to the log file: inform routes both
`log` messages and error/fatal reports there. -/
def diagnostics (st : RunState) : List String := st.logs ++ st.errors

/-! ### Interpreter lemmas -/

lemma runTermList_append (acct : Account) (st : RunState) (xs ys : List String) :
    runTermList acct st (xs ++ ys) =
      match runTermList acct st xs with
      | (st', none) => runTermList acct st' ys
      | (st', some e) => (st', some e) := by
  induction xs generalizing st with
  | nil => simp [runTermList]
  | cons t ts ih =>
    simp only [List.cons_append, runTermList]
    rcases procTerm acct st t with ⟨st', e⟩
    cases e <;> simp [ih]

/-- On the term `"{sleep abc}"`, the loop body takes the sleep branch,
its asserts pass, and the `TypeError` from `time.sleep("abc")` becomes
the fatal script error after the pending buffer is flushed. -/
lemma procTerm_sleep_abc (acct : Account) (st : RunState) :
    procTerm acct st "{sleep abc}" = sleepAbort st "{sleep abc}" := rfl

/-! ### Concrete accounts for the script claims -/

/-- The account of the spec test: non-secret `username = "foo"`,
secret `passcode = "bar"`. -/
def acctFoo : Account := fun f =>
  if f = "username" then some ("foo", false)
  else if f = "passcode" then some ("bar", true)
  else none

/-- An account with no resolvable fields (scripts without field
references never consult it). -/
def acctEmpty : Account := fun _ => none

/-- C4 (counterexample): on the spec test script with
`username = "foo"` (non-secret) and `passcode = "bar"` (secret) the
keystroke stream is indeed `"foo: bar\n"`, but the literal `": "` is
appended only to the keystroke buffer and never to the transcript, so
the transcript is `"foo<passcode>\n"`, not the claimed
`"foo: <passcode>\n"`. -/
theorem C4_transcript_counterexample :
    (runScript acctFoo "{username}: {passcode}{return}").1.sent =
      ["foo: bar\n"] ∧
    transcript (runScript acctFoo "{username}: {passcode}{return}").1 =
      "foo<passcode>\n" ∧
    ("foo<passcode>\n" : String) ≠ "foo: <passcode>\n" :=
  ⟨rfl, rfl, by decide⟩

/-- C4 (amended): literal text between commands is appended verbatim to
the keystroke buffer only — the transcript is untouched by the literal
branch — and the spec test script therefore yields keystroke stream
`"foo: bar\n"` with transcript `"foo<passcode>\n"`. -/
theorem C4_literal_to_buffer_only :
    (∀ (acct : Account) (st : RunState) (t : String), braceTerm t = false →
      procTerm acct st t = ({ st with out := st.out ++ [t] }, none)) ∧
    (runScript acctFoo "{username}: {passcode}{return}").1.sent =
      ["foo: bar\n"] ∧
    transcript (runScript acctFoo "{username}: {passcode}{return}").1 =
      "foo<passcode>\n" := by
  refine ⟨?_, rfl, rfl⟩
  intro acct st t h
  simp [procTerm, h]

theorem C4_literal_to_buffer_only_witness :
    procTerm acctFoo initRunState ": " =
      ({ initRunState with out := [": "] }, none) :=
  C4_literal_to_buffer_only.1 acctFoo initRunState ": " (by decide)

/-- C5 (code evaluated at the failing input): the well-formed command
`{sleep 2}` does not pause and is not recorded in the transcript.  Its
asserts pass and the buffered `{tab}` keystroke is flushed, but
`time.sleep` is handed the string `"2"`, raises `TypeError`, and the
interpreter aborts fatally with `'syntax error in keyboard script.'`;
the `{return}` after it is never processed and the transcript is just
`"\t"`. -/
theorem C5_wellformed_sleep_aborts :
    runScript acctEmpty "{tab}{sleep 2}{return}" =
      (⟨[], ["\t"], ["\t"], [],
        ["{sleep 2}: syntax error in keyboard script."]⟩,
       some (ScriptAbort.scriptError "{sleep 2}")) ∧
    transcript (runScript acctEmpty "{tab}{sleep 2}{return}").1 = "\t" :=
  ⟨rfl, rfl⟩

/-- C6 (counterexample): the script `"x{sleep abc}"` contains the
malformed sleep command, yet the tokenizer regex `({\w+})` cannot match
it (the interior has a space) and no other command splits it off, so the
whole script is one literal segment: the run completes without any
error, and `"x{sleep abc}"` is typed verbatim. -/
theorem C6_embedded_sleep_counterexample :
    runScript acctEmpty "x{sleep abc}" =
      (⟨[], [], ["x{sleep abc}"], ["Autotyping \"\"."], []⟩, none) ∧
    (none : Option ScriptAbort) ≠
      some (ScriptAbort.scriptError "{sleep abc}") :=
  ⟨rfl, by decide⟩

/-- C6 (amended): a malformed sleep command aborts the disclosure
exactly when it forms its own segment of the tokenization (flanked by
matched `{word}` commands or the ends of the script).  In that case,
provided the segments before it run without abort, the whole run ends
in the fatal script error: the pending buffer is flushed, and no
keystrokes for any later token are ever sent (the final state is
exactly `sleepAbort` of the state reached before the command). -/
theorem C6_isolated_sleep_aborts (acct : Account) (script : String)
    (pre post : List String) (st : RunState)
    (hsplit : splitScript script = pre ++ "{sleep abc}" :: post)
    (hpre : runTermList acct initRunState pre = (st, none)) :
    runScript acct script = sleepAbort st "{sleep abc}" := by
  unfold runScript
  rw [hsplit, runTermList_append, hpre]
  simp only [runTermList, procTerm_sleep_abc, sleepAbort]

theorem C6_isolated_sleep_witness :
    splitScript "{tab}{sleep abc}{tab}" =
      ["", "{tab}"] ++ "{sleep abc}" :: ["{tab}", ""] ∧
    runScript acctEmpty "{tab}{sleep abc}{tab}" =
      sleepAbort ⟨["", "\t"], ["\t"], [], [], []⟩ "{sleep abc}" :=
  ⟨by decide,
   C6_isolated_sleep_aborts acctEmpty "{tab}{sleep abc}{tab}"
     ["", "{tab}"] ["{tab}", ""] ⟨["", "\t"], ["\t"], [], [], []⟩
     (by decide) (by decide)⟩

/-! ## The transactional edit workflows (command.py)

The storage layer (`PythonFile` / `GnuPG` from the repository's
`files.py` / `gpg.py`) is not among the source files.  Modelled from the
spec: `backup(suffix)` duplicates the resource's current bytes into a
backup slot, `restore()` copies the backup back over the original,
`save(text, ...)` replaces the resource's bytes with `text`, and
`run()` validates by parsing/executing the current text — modelled by a
`valid : String → Bool` predicate on the saved text.  The external
editor rewrites the opened resource; each editor session's resulting
text is an element of the `edits` list, and each answer to the
`'Try again?'` prompt an element of `responses`. -/

/-- Outcomes of one edit/add command invocation.  `committed` is the
`break` out of the validation loop; `rolledBack` is the
`PasswordError`-handler path that calls `restore()`; `unchanged` is
`Add.run`'s `return output('Unchanged, and so ignored.')`;
`incomplete` marks a run whose editor/prompt inputs were exhausted (the
real loop only ends through the other three). -/
inductive EditOutcome where
  | committed
  | rolledBack
  | unchanged
  | incomplete
deriving DecidableEq, Repr

/-- The files `Edit.run` touches: the accounts file it edits in place,
and the `.saved` backup taken before editing begins. -/
structure FileState where
  file : String
  backup : Option String
deriving DecidableEq, Repr

/-- The `while True` loop of `Edit.run`: `GenericEditor.open` edits the
accounts file in place, `accounts_file.run()` validates it; on
`PasswordError` the user is asked to retry, and declining raises
`PasswordError('Giving up, restoring original version.')`, which the
outer handler answers with `accounts_file.restore()`. -/
def editLoop (valid : String → Bool) :
    FileState → List String → List Bool → EditOutcome × FileState
  | st, [], _ => (.incomplete, st)
  | st, e :: edits, responses =>
    let st₁ : FileState := { st with file := e }
    if valid e then (.committed, st₁)
    else
      match responses with
      | [] => (.incomplete, st₁)
      | r :: rs =>
        if r then editLoop valid st₁ edits rs
        else (.rolledBack, { st₁ with file := st₁.backup.getD st₁.file })

/-- `Edit.run` after account resolution: back the accounts file up with
suffix `.saved`, then run the edit/validate loop. -/
def editRun (valid : String → Bool) (file0 : String)
    (edits : List String) (responses : List Bool) :
    EditOutcome × FileState :=
  editLoop valid { file := file0, backup := some file0 } edits responses

/-- The files `Add.run` touches: the accounts file, its `.saved`
backup, and the temporary (GnuPG) file holding the template
(`none` once `tmpfile.remove()` has run). -/
structure AddState where
  file : String
  backup : Option String
  tmp : Option String
deriving DecidableEq, Repr

/-- The instruction-stripping step of `Add.run`:
`'\n'.join(l for l in new.split('\n') if not
l.startswith('# Avendesora:')).strip('\n') + '\n'`. -/
def removeInstructions (s : String) : String :=
  stripNL (String.mk (joinNL ((splitLines s.toList).filter
    (fun l => ¬ strStartsWith (String.mk l) "# Avendesora:")))) ++ "\n"

/-- The `while True` loop of `Add.run`.  Each iteration opens the
temporary file in the editor and reads it back as `e`.  An empty or
template-identical text returns the `unchanged` outcome at once.
Otherwise instructions are stripped, the `<<...>>`-delimited spans are
obscured (`hideValues`, modelled from the spec: the external
`ObscuredSecret.hide` substitution), the candidate is saved over the
accounts file and validated; on failure a declined retry raises
`PasswordError`, answered by `orig_accounts_file.restore()` with the
temporary file deliberately left in place. -/
def addLoop (valid : String → Bool) (hideValues : String → String)
    (origCode template : String) :
    AddState → List String → List Bool → EditOutcome × AddState
  | st, [], _ => (.incomplete, st)
  | st, e :: edits, responses =>
    let st₁ : AddState := { st with tmp := some e }
    if pyStrip e = "" ∨ e = template then (.unchanged, st₁)
    else
      let accounts := origCode ++ "\n\n\n" ++ hideValues (removeInstructions e)
      let st₂ : AddState := { st₁ with file := accounts }
      if valid accounts then (.committed, { st₂ with tmp := none })
      else
        match responses with
        | [] => (.incomplete, st₂)
        | r :: rs =>
          if r then addLoop valid hideValues origCode template st₂ edits rs
          else (.rolledBack, { st₂ with file := st₂.backup.getD st₂.file })

/-- `Add.run` after template selection: read the original accounts file
(its `code`, stripped of surrounding newlines, is the base the new
account is appended to), back it up with suffix `.saved`, save the
template into a fresh temporary file, then run the loop. -/
def addRun (valid : String → Bool) (hideValues : String → String)
    (file0 template : String) (edits : List String)
    (responses : List Bool) : EditOutcome × AddState :=
  addLoop valid hideValues (stripNL file0) template
    { file := file0, backup := some file0, tmp := some template }
    edits responses

/-! ### Workflow lemmas -/

lemma editLoop_backup_const (valid : String → Bool) :
    ∀ (edits : List String) (rs : List Bool) (st : FileState),
      (editLoop valid st edits rs).2.backup = st.backup := by
  intro edits
  induction edits with
  | nil => intro rs st; simp [editLoop]
  | cons e es ih =>
    intro rs st
    simp only [editLoop]
    by_cases hv : valid e
    · simp [hv]
    · simp only [hv, if_false]
      match rs with
      | [] => simp
      | r :: rs' =>
        by_cases hr : r
        · simp [hr, ih]
        · simp [hr]

lemma editLoop_rolledBack (valid : String → Bool) :
    ∀ (edits : List String) (rs : List Bool) (st : FileState) (b : String),
      st.backup = some b →
      (editLoop valid st edits rs).1 = .rolledBack →
      (editLoop valid st edits rs).2.file = b := by
  intro edits
  induction edits with
  | nil => intro rs st b hb h; simp [editLoop] at h
  | cons e es ih =>
    intro rs st b hb h
    simp only [editLoop] at h ⊢
    by_cases hv : valid e
    · simp [hv] at h
    · simp only [hv, if_false] at h ⊢
      match rs with
      | [] => simp at h
      | r :: rs' =>
        by_cases hr : r
        · simp only [hr, if_true] at h ⊢
          exact ih rs' _ b hb h
        · simp [hr, hb]

lemma addLoop_backup_const (valid : String → Bool)
    (hideValues : String → String) (origCode template : String) :
    ∀ (edits : List String) (rs : List Bool) (st : AddState),
      (addLoop valid hideValues origCode template st edits rs).2.backup =
        st.backup := by
  intro edits
  induction edits with
  | nil => intro rs st; simp [addLoop]
  | cons e es ih =>
    intro rs st
    simp only [addLoop]
    by_cases hu : pyStrip e = "" ∨ e = template
    · simp [hu]
    · simp only [hu, if_false]
      by_cases hv : valid (origCode ++ "\n\n\n" ++ hideValues (removeInstructions e))
      · simp [hv]
      · simp only [hv, if_false]
        match rs with
        | [] => simp
        | r :: rs' =>
          by_cases hr : r
          · simp [hr, ih]
          · simp [hr]

lemma addLoop_rolledBack (valid : String → Bool)
    (hideValues : String → String) (origCode template : String) :
    ∀ (edits : List String) (rs : List Bool) (st : AddState) (b : String),
      st.backup = some b →
      (addLoop valid hideValues origCode template st edits rs).1 = .rolledBack →
      (addLoop valid hideValues origCode template st edits rs).2.file = b := by
  intro edits
  induction edits with
  | nil => intro rs st b hb h; simp [addLoop] at h
  | cons e es ih =>
    intro rs st b hb h
    simp only [addLoop] at h ⊢
    by_cases hu : pyStrip e = "" ∨ e = template
    · simp [hu] at h
    · simp only [hu, if_false] at h ⊢
      by_cases hv : valid (origCode ++ "\n\n\n" ++ hideValues (removeInstructions e))
      · simp [hv] at h
      · simp only [hv, if_false] at h ⊢
        match rs with
        | [] => simp at h
        | r :: rs' =>
          by_cases hr : r
          · simp only [hr, if_true] at h ⊢
            exact ih rs' _ b hb h
          · simp [hr, hb]

lemma addLoop_unchanged_tmp (valid : String → Bool)
    (hideValues : String → String) (origCode template : String) :
    ∀ (edits : List String) (rs : List Bool) (st : AddState),
      (addLoop valid hideValues origCode template st edits rs).1 = .unchanged →
      (addLoop valid hideValues origCode template st edits rs).2.tmp.isSome =
        true := by
  intro edits
  induction edits with
  | nil => intro rs st h; simp [addLoop] at h
  | cons e es ih =>
    intro rs st h
    simp only [addLoop] at h ⊢
    by_cases hu : pyStrip e = "" ∨ e = template
    · simp [hu]
    · simp only [hu, if_false] at h ⊢
      by_cases hv : valid (origCode ++ "\n\n\n" ++ hideValues (removeInstructions e))
      · simp [hv] at h
      · simp only [hv, if_false] at h ⊢
        match rs with
        | [] => simp at h
        | r :: rs' =>
          by_cases hr : r
          · simp only [hr, if_true] at h ⊢
            exact ih rs' _ h
          · simp [hr] at h

/-- C1: in both edit workflows, if validation fails and the user
declines the retry prompt, the `PasswordError` handler restores the
accounts file from the `.saved` backup taken before editing began, so
whenever a run ends rolled back its file bytes equal the bytes it held
before the edit began. -/
theorem C1_rollback_restores_original :
    (∀ (valid : String → Bool) (file0 : String) (edits : List String)
      (rs : List Bool) (st : FileState),
      editRun valid file0 edits rs = (.rolledBack, st) → st.file = file0) ∧
    (∀ (valid : String → Bool) (hideValues : String → String)
      (file0 template : String) (edits : List String) (rs : List Bool)
      (st : AddState),
      addRun valid hideValues file0 template edits rs = (.rolledBack, st) →
      st.file = file0) := by
  constructor
  · intro valid file0 edits rs st h
    have h1 : (editRun valid file0 edits rs).1 = .rolledBack := by rw [h]
    have h2 : (editRun valid file0 edits rs).2.file = file0 :=
      editLoop_rolledBack valid edits rs
        { file := file0, backup := some file0 } file0 rfl h1
    rw [h] at h2
    exact h2
  · intro valid hideValues file0 template edits rs st h
    have h1 : (addRun valid hideValues file0 template edits rs).1 =
        .rolledBack := by rw [h]
    have h2 : (addRun valid hideValues file0 template edits rs).2.file = file0 :=
      addLoop_rolledBack valid hideValues (stripNL file0) template
        edits rs { file := file0, backup := some file0, tmp := some template }
        file0 rfl h1
    rw [h] at h2
    exact h2

theorem C1_rollback_restores_original_witness :
    (editRun (fun _ => false) "orig accounts" ["edited badly"] [false]).2.file =
      "orig accounts" ∧
    (addRun (fun _ => false) id "orig accounts" "template" ["new acct"]
      [false]).2.file = "orig accounts" :=
  ⟨C1_rollback_restores_original.1 (fun _ => false) "orig accounts"
    ["edited badly"] [false] _ rfl,
   C1_rollback_restores_original.2 (fun _ => false) id "orig accounts"
    "template" ["new acct"] [false] _ rfl⟩

/-- C7 (counterexample): the edit workflow never reads the edited text
back for comparison with a seed: when an editor session leaves the
accounts file identical to what it was, `Edit.run` simply validates it
and breaks out of the loop with no no-op report — the run commits, it
does not report `unchanged`. -/
theorem C7_edit_has_no_noop_counterexample :
    editRun (fun _ => true) "acct file" ["acct file"] [] =
      (.committed, ⟨"acct file", some "acct file"⟩) ∧
    EditOutcome.committed ≠ EditOutcome.unchanged :=
  ⟨rfl, by decide⟩

/-- C7 (amended): only the add workflow checks the text it reads back:
when an editor session leaves the temporary file empty or identical to
the template, `Add.run` reports `'Unchanged, and so ignored.'` and
returns at once — nothing is committed, the backup is not discarded,
nothing is restored, and the accounts file still holds the bytes it
held when the command began.  (`Edit.run` performs no such comparison
and always proceeds to validation.) -/
theorem C7_add_noop_stops (valid : String → Bool)
    (hideValues : String → String) (file0 template e : String)
    (edits : List String) (rs : List Bool)
    (h : pyStrip e = "" ∨ e = template) :
    addRun valid hideValues file0 template (e :: edits) rs =
      (.unchanged, ⟨file0, some file0, some e⟩) := by
  simp [addRun, addLoop, h]

theorem C7_add_noop_stops_witness :
    addRun (fun _ => false) id "orig accounts" "template" ["template"] [] =
      (.unchanged, ⟨"orig accounts", some "orig accounts", some "template"⟩) :=
  C7_add_noop_stops (fun _ => false) id "orig accounts" "template" "template"
    [] [] (Or.inr rfl)

/-- C10 (counterexample): the no-op return of `Add.run` does not always
leave the accounts file with its original content.  If a first candidate
fails validation (after having been saved over the accounts file) and
the user retries, then reverts the temporary file to the template, the
command returns `'Unchanged, and so ignored.'` while the accounts file
still holds the failed candidate. -/
theorem C10_noop_after_retry_counterexample :
    addRun (fun s => s == "orig") id "orig" "T" ["bad", "T"] [true] =
      (.unchanged, ⟨"orig\n\n\nbad\n", some "orig", some "T"⟩) ∧
    ("orig\n\n\nbad\n" : String) ≠ "orig" :=
  ⟨rfl, by decide⟩

/-- C10 (amended): on the no-op outcome of the add command the run
returns before any commit or rollback, and both the `.saved` backup
created at the start and the temporary file remain on disk; the
accounts file retains its original content whenever the no-op occurs in
the first editing session (after a failed validation and a retry it
retains the failed candidate instead). -/
theorem C10_noop_keeps_backup_and_tmp :
    (∀ (valid : String → Bool) (hideValues : String → String)
      (file0 template : String) (edits : List String) (rs : List Bool)
      (st : AddState),
      addRun valid hideValues file0 template edits rs = (.unchanged, st) →
      st.backup = some file0 ∧ st.tmp.isSome = true) ∧
    (∀ (valid : String → Bool) (hideValues : String → String)
      (file0 template e : String) (edits : List String) (rs : List Bool),
      (pyStrip e = "" ∨ e = template) →
      (addRun valid hideValues file0 template (e :: edits) rs).2.file =
        file0) := by
  constructor
  · intro valid hideValues file0 template edits rs st h
    have h1 : (addRun valid hideValues file0 template edits rs).1 =
        .unchanged := by rw [h]
    have hb := addLoop_backup_const valid hideValues (stripNL file0) template
      edits rs { file := file0, backup := some file0, tmp := some template }
    have ht := addLoop_unchanged_tmp valid hideValues (stripNL file0) template
      edits rs { file := file0, backup := some file0, tmp := some template } h1
    rw [show addLoop valid hideValues (stripNL file0) template
        { file := file0, backup := some file0, tmp := some template }
        edits rs = addRun valid hideValues file0 template edits rs from rfl,
      h] at hb ht
    exact ⟨hb, ht⟩
  · intro valid hideValues file0 template e edits rs h
    simp [addRun, addLoop, h]

theorem C10_noop_keeps_backup_and_tmp_witness :
    ((addRun (fun _ => false) id "orig" "T" ["T"] []).2.backup = some "orig" ∧
      (addRun (fun _ => false) id "orig" "T" ["T"] []).2.tmp.isSome = true) ∧
    (addRun (fun _ => false) id "orig" "T" ["T"] []).2.file = "orig" :=
  ⟨C10_noop_keeps_backup_and_tmp.1 (fun _ => false) id "orig" "T" ["T"] []
    ⟨"orig", some "orig", some "T"⟩ rfl,
   C10_noop_keeps_backup_and_tmp.2 (fun _ => false) id "orig" "T" "T" [] []
    (Or.inr rfl)⟩

/-! ## The interactive (TTY) channel (`TTY_Writer.display_field`)

Field resolution (`split_name` / `get_field` / `is_secret`) is the
external collaborator; the model takes its results as inputs: `key`
(the culprit of the warning), `label` (`combine_name`), `tvalue` (the
resolved value after `dedent(str(...)).strip()`, applied at the call
site) and the secrecy flag.  The `value.get_name()` label suffix and
the label colouring are presentation of the label only and are not
modelled; `reindent` stands for the
`indent(dedent(tvalue), setting).strip('\n')` reformatting applied to
non-secret multi-line values. -/

/-- Observable trace of one TTY disclosure: warnings (`warn`), log
lines (`log`), plain `output` lines, and — for a secret — the text
written by `cursor.write` and cleared after the display time (or
immediately on interrupt). -/
structure TTYTrace where
  warnings : List String
  logs : List String
  outputs : List String
  displayed : Option String
deriving DecidableEq, Repr

/-- `TTY_Writer.display_field`: a secret value containing a newline
draws the warning `'secret contains newlines, will not be fully
concealed.'`; a non-secret multi-line value is re-indented and set off
by a newline; the label is logged, then the text is either output
plainly (non-secret) or displayed temporarily (secret). -/
def ttyDisplayField (key label tvalue : String) (isSecret : Bool)
    (reindent : String → String) : TTYTrace :=
  let hasNL := tvalue.toList.contains '\n'
  let warnings :=
    if hasNL && isSecret then
      [key ++ ": secret contains newlines, will not be fully concealed."]
    else []
  let sep := if hasNL && !isSecret then "\n" else " "
  let tv := if hasNL && !isSecret then reindent tvalue else tvalue
  let logs := ["Writing to TTY: " ++ label]
  let text := upperStr label ++ ":" ++ sep ++ tv
  if isSecret then
    { warnings := warnings, logs := logs, outputs := [], displayed := some text }
  else
    { warnings := warnings, logs := logs, outputs := [text], displayed := none }

/-! ## The clipboard channel (`ClipboardWriter.display_field`)

`display_field` invokes `Run([get_settings('xsel_executable'), '-b',
'-i'], 'soew', stdin=value)`.  Python resolves the global name
`get_settings` when the call executes; the writer module binds
`get_setting` (imported from `.config`) but nothing ever binds
`get_settings`, so the lookup raises `NameError` — which the
surrounding `except Error` (inform's `Error`) does not catch.  The
embedding makes that name resolution explicit against the module's
actual global scope. -/

/-- The global names bound in the `writer.py` module scope (its imports
and module-level definitions). -/
def writerModuleScope : List String :=
  ["cursor", "get_setting", "INITIAL_AUTOTYPE_DELAY", "Run", "Color",
   "Error", "error", "fatal", "log", "output", "warn", "sleep", "indent",
   "dedent", "string", "re", "LabelColor", "KEYSYMS", "get_writer",
   "Writer", "TTY_Writer", "ClipboardWriter", "StdoutWriter",
   "KeyboardWriter"]

/-- Events on the clipboard sink and countdown display. -/
inductive ClipEvent where
  | set (v : String)
  | tick (t : Nat)
  | clear
deriving DecidableEq, Repr

/-- Observable trace of one clipboard disclosure. -/
structure ClipTrace where
  logs : List String
  warnings : List String
  clipboard : List ClipEvent
  exception : Option String
deriving DecidableEq, Repr

/-- `ClipboardWriter.display_field` after field resolution: logs
`'Writing to clipboard.'`, then evaluates
`get_settings('xsel_executable')`.  Were the name bound, the value
would be placed on the clipboard and, for a secret, a once-per-second
countdown (`range(display_time, -1, -1)`) would run before the
clipboard-clear; the name is not bound, so the call raises `NameError`
and no clipboard event ever happens.  (There is no newline check or
warning anywhere in this method.) -/
def clipboardDisplayField (value : String) (isSecret : Bool)
    (displayTime : Nat) : ClipTrace :=
  let logs := ["Writing to clipboard."]
  if "get_settings" ∈ writerModuleScope then
    let events :=
      if isSecret then
        [ClipEvent.set value] ++
          ((List.range (displayTime + 1)).reverse.map ClipEvent.tick) ++
          [ClipEvent.clear]
      else [ClipEvent.set value]
    { logs := logs, warnings := [], clipboard := events, exception := none }
  else
    { logs := logs, warnings := [], clipboard := [],
      exception := some "NameError: get_settings is not defined" }

/-- C3 (code evaluated at the failing input): every clipboard
disclosure — before reaching the clipboard sink at all — raises
`NameError` on the undefined name `get_settings` (the module only binds
`get_setting`), so the value is never set on the clipboard, no
countdown is shown, and no clipboard-clear is ever issued. -/
theorem C3_clipboard_name_error (value : String) (isSecret : Bool)
    (displayTime : Nat) :
    clipboardDisplayField value isSecret displayTime =
      { logs := ["Writing to clipboard."], warnings := [], clipboard := [],
        exception := some "NameError: get_settings is not defined" } := rfl

/-- C8 (counterexample): disclosing the secret multi-line value
`"a\nb"` through the clipboard channel emits no warning at all —
`ClipboardWriter.display_field` contains no newline check (it aborts on
the `get_settings` `NameError` first, and has no `warn` call in any
case). -/
theorem C8_clipboard_no_warning_counterexample :
    ("a\nb").toList.contains '\n' = true ∧
    (clipboardDisplayField "a\nb" true 5).warnings = [] :=
  ⟨by decide, rfl⟩

/-- C8 (amended): only the interactive (TTY) channel warns when a
secret value contains embedded line breaks — it emits exactly
`'secret contains newlines, will not be fully concealed.'` against the
field key — while the clipboard channel never emits any warning. -/
theorem C8_only_tty_warns :
    (∀ (key label tvalue : String) (reindent : String → String),
      tvalue.toList.contains '\n' = true →
      (ttyDisplayField key label tvalue true reindent).warnings =
        [key ++ ": secret contains newlines, will not be fully concealed."]) ∧
    (∀ (value : String) (isSecret : Bool) (displayTime : Nat),
      (clipboardDisplayField value isSecret displayTime).warnings = []) := by
  constructor
  · intro key label tvalue reindent h
    simp [ttyDisplayField, h]
    simpa using h
  · intro value isSecret displayTime
    rfl

theorem C8_only_tty_warns_witness :
    (ttyDisplayField "passcode" "passcode" "a\nb" true id).warnings =
      ["passcode: secret contains newlines, will not be fully concealed."] :=
  C8_only_tty_warns.1 "passcode" "passcode" "a\nb" id (by decide)

/-! ## Log noninterference for the disclosure channels (C2)

The claim's hyperproperty form: the text reaching the log sink must be
unchanged across two runs that differ only in the values of secret
fields.  inform routes `log` messages and `error`/`fatal` reports to
the log file alike (the spec itself says unmapped characters are
"logged as individual errors"), so the sink under scrutiny is
`diagnostics` = logs ++ errors. -/

/-- Every character of the string has a keysym mapping. -/
def allMapped (s : String) : Bool :=
  s.toList.all fun c => (charKeysym c).isSome

/-- Two accounts that differ at most in the values of secret fields:
same domain, same secrecy flags, equal values on non-secret fields. -/
def lowEquiv (a b : Account) : Prop :=
  ∀ f, ((a f).isSome = (b f).isSome) ∧
    (∀ v₁ s₁ v₂ s₂, a f = some (v₁, s₁) → b f = some (v₂, s₂) →
      s₁ = s₂ ∧ (s₁ = false → v₁ = v₂))

/-- All secret values of the account map fully to keysyms. -/
def secretsMapped (a : Account) : Prop :=
  ∀ f v, a f = some (v, true) → allMapped v = true

/-- The relation maintained between the keystroke buffers of two
low-equivalent runs: pieces are pairwise either equal (literals and
non-secret values) or both fully mappable (secret values). -/
def outRel (o₁ o₂ : List String) : Prop :=
  List.Forall₂ (fun x y => x = y ∨ (allMapped x = true ∧ allMapped y = true))
    o₁ o₂

/-- The noninterference invariant on interpreter states: the transcript
pieces, log lines and error reports coincide, and the keystroke buffers
are `outRel`-related (the `sent` keystrokes of course differ — they
carry the secrets). -/
def stRel (st₁ st₂ : RunState) : Prop :=
  st₁.scrubbed = st₂.scrubbed ∧ st₁.logs = st₂.logs ∧
  st₁.errors = st₂.errors ∧ outRel st₁.out st₂.out

lemma outRel_snoc {o₁ o₂ : List String} (h : outRel o₁ o₂) {x y : String}
    (hxy : x = y ∨ (allMapped x = true ∧ allMapped y = true)) :
    outRel (o₁ ++ [x]) (o₂ ++ [y]) := by
  induction h with
  | nil => exact List.Forall₂.cons hxy List.Forall₂.nil
  | cons hab _ ih => exact List.Forall₂.cons hab ih

lemma outRel_nil_iff {o₁ o₂ : List String} (h : outRel o₁ o₂) :
    o₁ = [] ↔ o₂ = [] := by
  cases h with
  | nil => simp
  | cons _ _ => simp

lemma allMapped_filter_nil {s : String} (h : allMapped s = true) :
    s.toList.filter (fun c => (charKeysym c).isNone) = [] := by
  rw [List.filter_eq_nil_iff]
  intro c hc
  have h2 := List.all_eq_true.mp h c hc
  obtain ⟨k, hk⟩ := Option.isSome_iff_exists.mp h2
  simp [hk]

lemma join_filter_eq {o₁ o₂ : List String} (h : outRel o₁ o₂) :
    (o₁.map String.toList).flatten.filter (fun c => (charKeysym c).isNone) =
    (o₂.map String.toList).flatten.filter (fun c => (charKeysym c).isNone) := by
  induction h with
  | nil => rfl
  | cons hxy _ ih =>
    simp only [List.map_cons, List.flatten_cons, List.filter_append]
    rcases hxy with rfl | ⟨hx, hy⟩
    · rw [ih]
    · rw [allMapped_filter_nil hx, allMapped_filter_nil hy, ih]

lemma outRel_errors_eq {o₁ o₂ : List String} (h : outRel o₁ o₂) :
    (autotype (strJoin o₁)).2 = (autotype (strJoin o₂)).2 := by
  rw [autotype_snd, autotype_snd]
  show ((o₁.map String.toList).flatten.filter
      (fun c => (charKeysym c).isNone)).map errMsg =
    ((o₂.map String.toList).flatten.filter
      (fun c => (charKeysym c).isNone)).map errMsg
  rw [join_filter_eq h]

lemma flushBuffer_rel {st₁ st₂ : RunState} (h : stRel st₁ st₂) :
    stRel (flushBuffer st₁) (flushBuffer st₂) := by
  obtain ⟨hs, hl, he, ho⟩ := h
  exact ⟨hs, hl, by simp [flushBuffer, he, outRel_errors_eq ho],
    List.Forall₂.nil⟩

lemma sleepAbort_rel {st₁ st₂ : RunState} (h : stRel st₁ st₂) (t : String) :
    (sleepAbort st₁ t).2 = (sleepAbort st₂ t).2 ∧
    stRel (sleepAbort st₁ t).1 (sleepAbort st₂ t).1 := by
  have hnil := outRel_nil_iff h.2.2.2
  unfold sleepAbort
  by_cases h1 : st₁.out = []
  · have h2 : st₂.out = [] := hnil.mp h1
    obtain ⟨hs, hl, he, ho⟩ := h
    simp only [h1, h2, if_true]
    exact ⟨by simp, by simp [hs], by simp [hl], by simp [he],
      List.Forall₂.nil⟩
  · have h2 : ¬ st₂.out = [] := fun hh => h1 (hnil.mpr hh)
    obtain ⟨hfs, hfl, hfe, hfo⟩ := flushBuffer_rel h
    simp only [h1, h2, if_false]
    exact ⟨by simp, by simp [hfs], by simp [hfl], by simp [hfe], hfo⟩

lemma procTerm_rel {a b : Account} (hab : lowEquiv a b)
    (hsa : secretsMapped a) (hsb : secretsMapped b)
    {st₁ st₂ : RunState} (h : stRel st₁ st₂) (t : String) :
    (procTerm a st₁ t).2 = (procTerm b st₂ t).2 ∧
    stRel (procTerm a st₁ t).1 (procTerm b st₂ t).1 := by
  obtain ⟨hs, hl, he, ho⟩ := h
  unfold procTerm
  by_cases hb1 : braceTerm t
  · simp only [hb1, if_true]
    by_cases ht : lowerStr (String.mk ((t.toList.drop 1).dropLast)) = "tab"
    · simp only [ht, if_true]
      exact ⟨by simp, by simp [hs], by simp [hl], by simp [he],
        outRel_snoc ho (Or.inl rfl)⟩
    · simp only [ht, if_false]
      by_cases hr : lowerStr (String.mk ((t.toList.drop 1).dropLast)) = "return"
      · simp only [hr, if_true]
        exact ⟨by simp, by simp [hs], by simp [hl], by simp [he],
          outRel_snoc ho (Or.inl rfl)⟩
      · simp only [hr, if_false]
        by_cases hsl : strStartsWith
            (lowerStr (String.mk ((t.toList.drop 1).dropLast))) "sleep "
        · simp only [hsl, if_true]
          by_cases has : (splitWs (lowerStr (String.mk
              ((t.toList.drop 1).dropLast)))).head? = some "sleep" ∧
              (splitWs (lowerStr (String.mk
                ((t.toList.drop 1).dropLast)))).length = 2
          · simp only [has, if_true]
            exact sleepAbort_rel ⟨hs, hl, he, ho⟩ t
          · simp only [has, if_false]
            exact ⟨by simp, by simp [hs], by simp [hl], by simp [he], ho⟩
        · simp only [hsl, if_false]
          rcases h1 : a (lowerStr (String.mk ((t.toList.drop 1).dropLast)))
            with _ | ⟨v₁, s₁⟩
          · rcases h2 : b (lowerStr (String.mk ((t.toList.drop 1).dropLast)))
              with _ | ⟨v₂, s₂⟩
            · simp only [h1, h2]
              exact ⟨by simp, by simp [hs], by simp [hl], by simp [he], ho⟩
            · exfalso
              have hd := (hab (lowerStr
                (String.mk ((t.toList.drop 1).dropLast)))).1
              rw [h1, h2] at hd
              simp at hd
          · rcases h2 : b (lowerStr (String.mk ((t.toList.drop 1).dropLast)))
              with _ | ⟨v₂, s₂⟩
            · exfalso
              have hd := (hab (lowerStr
                (String.mk ((t.toList.drop 1).dropLast)))).1
              rw [h1, h2] at hd
              simp at hd
            · obtain ⟨hss, hvv⟩ := (hab (lowerStr
                (String.mk ((t.toList.drop 1).dropLast)))).2 v₁ s₁ v₂ s₂ h1 h2
              subst hss
              simp only [h1, h2]
              cases s₁ with
              | true =>
                exact ⟨by simp, by simp [hs], by simp [hl], by simp [he],
                  outRel_snoc ho (Or.inr ⟨hsa _ v₁ h1, hsb _ v₂ h2⟩)⟩
              | false =>
                have hv : v₁ = v₂ := hvv rfl
                subst hv
                exact ⟨by simp, by simp [hs], by simp [hl], by simp [he],
                  outRel_snoc ho (Or.inl rfl)⟩
  · simp only [hb1, if_false]
    exact ⟨by simp, by simp [hs], by simp [hl], by simp [he],
      outRel_snoc ho (Or.inl rfl)⟩

lemma runTermList_rel {a b : Account} (hab : lowEquiv a b)
    (hsa : secretsMapped a) (hsb : secretsMapped b) :
    ∀ (ts : List String) {st₁ st₂ : RunState}, stRel st₁ st₂ →
      (runTermList a st₁ ts).2 = (runTermList b st₂ ts).2 ∧
      stRel (runTermList a st₁ ts).1 (runTermList b st₂ ts).1 := by
  intro ts
  induction ts with
  | nil => intro st₁ st₂ h; exact ⟨rfl, h⟩
  | cons t ts ih =>
    intro st₁ st₂ h
    have hp := procTerm_rel hab hsa hsb h t
    simp only [runTermList]
    rcases e1 : procTerm a st₁ t with ⟨st₁', o₁⟩
    rcases e2 : procTerm b st₂ t with ⟨st₂', o₂⟩
    rw [e1, e2] at hp
    obtain ⟨hoo, hrel⟩ := hp
    cases o₁ with
    | none =>
      cases o₂ with
      | none => simpa using ih hrel
      | some e => simp at hoo
    | some e =>
      cases o₂ with
      | none => simp at hoo
      | some e' =>
        simp only [Option.some.injEq] at hoo
        subst hoo
        exact ⟨rfl, hrel⟩

lemma finishRun_rel {st₁ st₂ : RunState} (h : stRel st₁ st₂) :
    stRel (finishRun st₁) (finishRun st₂) := by
  obtain ⟨hs, hl, he, ho⟩ := h
  exact ⟨by simp [finishRun, hs], by simp [finishRun, hs, hl],
    by simp [finishRun, he, outRel_errors_eq ho], List.Forall₂.nil⟩

/-! ### Concrete accounts for C2 -/

/-- Account whose only field is a secret holding a character with no
keysym mapping. -/
def acctE : Account := fun f =>
  if f = "passcode" then some ("é", true) else none

/-- Like `acctE` with a different unmappable secret value. -/
def acctN : Account := fun f =>
  if f = "passcode" then some ("ñ", true) else none

/-- Account with mappable secret `"bar"`. -/
def acctBar : Account := fun f =>
  if f = "passcode" then some ("bar", true) else none

/-- Account with mappable secret `"baz"`. -/
def acctBaz : Account := fun f =>
  if f = "passcode" then some ("baz", true) else none

lemma lowEquiv_single (v₁ v₂ : String) :
    lowEquiv (fun f => if f = "passcode" then some (v₁, true) else none)
      (fun f => if f = "passcode" then some (v₂, true) else none) := by
  intro f
  by_cases hf : f = "passcode" <;> simp [lowEquiv, hf]

lemma secretsMapped_single (val : String) (h : allMapped val = true) :
    secretsMapped
      (fun f => if f = "passcode" then some (val, true) else none) := by
  intro f v hv
  by_cases hf : f = "passcode"
  · simp only [hf, if_true, Option.some.injEq, Prod.mk.injEq] at hv
    rw [← hv.1]
    exact h
  · simp [hf] at hv

/-- C2 (counterexample): during an autotype run of `"{passcode}"`, a
secret whose value has no keysym mapping is passed verbatim as the
culprit of the `'cannot map to keysym, unknown'` error report, which
inform also writes to the log.  Two runs that differ only in the
secret's value (`"é"` vs `"ñ"`) therefore produce different logged
text, and the raw secret value appears in a logged string. -/
theorem C2_secret_reaches_log_counterexample :
    lowEquiv acctE acctN ∧
    diagnostics (runScript acctE "{passcode}").1 ≠
      diagnostics (runScript acctN "{passcode}").1 ∧
    ("é: cannot map to keysym, unknown") ∈
      diagnostics (runScript acctE "{passcode}").1 :=
  ⟨lowEquiv_single "é" "ñ", by decide, by decide⟩

/-- C2 (amended): provided every character of every secret value has a
keysym mapping, the text reaching the log sink is independent of the
secret values: two autotype runs of the same script over accounts that
differ only in secret values produce identical log-and-error output
(and identical abort behaviour); the TTY channel logs only the field's
label, and the clipboard channel logs only a fixed line.  Without the
mappability proviso, an unmapped secret character is passed verbatim to
an error report that reaches the log. -/
theorem C2_log_noninterference :
    (∀ (a b : Account) (script : String), lowEquiv a b →
      secretsMapped a → secretsMapped b →
      (runScript a script).2 = (runScript b script).2 ∧
      diagnostics (runScript a script).1 =
        diagnostics (runScript b script).1) ∧
    (∀ (key label tvalue : String) (isSecret : Bool)
      (reindent : String → String),
      (ttyDisplayField key label tvalue isSecret reindent).logs =
        ["Writing to TTY: " ++ label]) ∧
    (∀ (value : String) (isSecret : Bool) (displayTime : Nat),
      (clipboardDisplayField value isSecret displayTime).logs =
        ["Writing to clipboard."]) := by
  refine ⟨?_, ?_, ?_⟩
  · intro a b script hab hsa hsb
    have h0 : stRel initRunState initRunState :=
      ⟨rfl, rfl, rfl, List.Forall₂.nil⟩
    have hr := runTermList_rel hab hsa hsb (splitScript script) h0
    unfold runScript
    rcases e1 : runTermList a initRunState (splitScript script) with ⟨st₁, o₁⟩
    rcases e2 : runTermList b initRunState (splitScript script) with ⟨st₂, o₂⟩
    rw [e1, e2] at hr
    obtain ⟨hoo, hrel⟩ := hr
    simp only at hoo
    subst hoo
    cases o₁ with
    | none =>
      obtain ⟨hs, hl, he, _⟩ := finishRun_rel hrel
      exact ⟨rfl, by simp [diagnostics, hl, he]⟩
    | some e =>
      obtain ⟨hs, hl, he, _⟩ := hrel
      have hl' : st₁.logs = st₂.logs := hl
      have he' : st₁.errors = st₂.errors := he
      exact ⟨rfl, by simp [diagnostics, hl', he']⟩
  · intro key label tvalue isSecret reindent
    cases isSecret <;> rfl
  · intro value isSecret displayTime
    rfl

theorem C2_log_noninterference_witness :
    diagnostics (runScript acctBar "{passcode}").1 =
      diagnostics (runScript acctBaz "{passcode}").1 :=
  (C2_log_noninterference.1 acctBar acctBaz "{passcode}"
    (lowEquiv_single "bar" "baz")
    (secretsMapped_single "bar" (by decide))
    (secretsMapped_single "baz" (by decide))).2

end Avendesora
